import Mathlib

/-!
Verification of the resilience and distributed-coordination layer of the
trustflow platform backend.

Each component of `libs/infrastructure` (circuit breaker, retry policy,
sliding-window rate limiter, Redis key builder, cache, OTP verifier, session
store) is shallowly embedded below: pure Rust functions become Lean
functions, the atomic Lua scripts become pure state-transformers on an
explicit model of the per-key Redis sorted set, and the Redis string
keyspace becomes an explicit map from keys to (value, ttl) pairs.
Machine integers are modelled as `Nat` (all counters involved start at 0
and are bounded by `u32`/`u8` configuration thresholds well below any
wrap-around point) and `f64` duration arithmetic is modelled exactly over
`ℚ`.
-/

namespace CircuitBreaker

/-- `CircuitBreakerState` from `resilience/circuit_breaker.rs`:
`Closed | Open | HalfOpen` (stored in the Rust code as an `AtomicU32`
0/1/2). -/
inductive CBState where
  | Closed
  | Open
  | HalfOpen
deriving DecidableEq, Repr

/-- `CircuitBreakerConfig`: `failure_threshold` and `success_threshold` are
`u32`, `timeout` a duration in whole seconds. -/
structure CBConfig where
  failure_threshold : Nat
  success_threshold : Nat
  timeout : Nat
deriving Repr

/-- The mutable fields of `CircuitBreaker`: `state`, `failures`,
`successes` (`AtomicU64`) and `last_failure_time` (`AtomicU64`, seconds
since the epoch). -/
structure CB where
  state : CBState
  failures : Nat
  successes : Nat
  last_failure_time : Nat
deriving DecidableEq, Repr

/-- `CircuitBreaker::new`: starts `Closed` with all counters zero. -/
def CB.new : CB := ⟨.Closed, 0, 0, 0⟩

/-- `CircuitBreaker::transition_to_closed`: stores state `Closed` and
resets both `failures` and `successes` to 0. -/
def transition_to_closed (s : CB) : CB :=
  { s with state := .Closed, failures := 0, successes := 0 }

/-- `CircuitBreaker::transition_to_open`: stores state `Open` and records
`now` in `last_failure_time`; it does NOT touch `failures` or
`successes`. -/
def transition_to_open (now : Nat) (s : CB) : CB :=
  { s with state := .Open, last_failure_time := now }

/-- `CircuitBreaker::transition_to_half_open`: stores state `HalfOpen` and
resets `successes` to 0; it does NOT touch `failures`. -/
def transition_to_half_open (s : CB) : CB :=
  { s with state := .HalfOpen, successes := 0 }

/-- `CircuitBreaker::record_success`: in `Closed` reset `failures` to 0;
in `HalfOpen` increment `successes` and transition to `Closed` once it
reaches `success_threshold`; in `Open` do nothing. -/
def record_success (cfg : CBConfig) (s : CB) : CB :=
  match s.state with
  | .Closed => { s with failures := 0 }
  | .HalfOpen =>
      let successes := s.successes + 1
      let s' := { s with successes := successes }
      if successes ≥ cfg.success_threshold then transition_to_closed s' else s'
  | .Open => s

/-- `CircuitBreaker::record_failure` (`now` = current unix seconds): in
`Closed` increment `failures`, store `now` into `last_failure_time`, and
transition to `Open` once `failures` reaches `failure_threshold`; in
`HalfOpen` transition straight to `Open`; in `Open` do nothing. -/
def record_failure (cfg : CBConfig) (now : Nat) (s : CB) : CB :=
  match s.state with
  | .Closed =>
      let failures := s.failures + 1
      let s' := { s with failures := failures, last_failure_time := now }
      if failures ≥ cfg.failure_threshold then transition_to_open now s' else s'
  | .HalfOpen => transition_to_open now s
  | .Open => s

/-- Streak of `n` consecutive recorded failures, all timestamped `now`. -/
def failStreak (cfg : CBConfig) (now : Nat) (n : Nat) (s : CB) : CB :=
  (record_failure cfg now)^[n] s

lemma failStreak_closed_eq (cfg : CBConfig) (now t : Nat) (n : Nat)
    (hn : n < cfg.failure_threshold) :
    failStreak cfg now n ⟨.Closed, 0, 0, t⟩ =
      ⟨.Closed, n, 0, if n = 0 then t else now⟩ := by
  induction n with
  | zero => simp [failStreak]
  | succ k ih =>
      have hk : k < cfg.failure_threshold := Nat.lt_of_succ_lt hn
      have : failStreak cfg now (k + 1) ⟨.Closed, 0, 0, t⟩ =
          record_failure cfg now (failStreak cfg now k ⟨.Closed, 0, 0, t⟩) := by
        simp [failStreak, Function.iterate_succ_apply']
      rw [this, ih hk]
      have hlt : ¬ (k + 1 ≥ cfg.failure_threshold) := by omega
      simp [record_failure, hlt]

end CircuitBreaker

namespace CircuitBreaker

/-- C1: starting from `Closed` with zero counters, any `n <
failure_threshold` consecutive failures leave the breaker `Closed` (with
`failures = n`), the `failure_threshold`-th consecutive failure moves it
to `Open`, and a success recorded in any `Closed` state resets the
failure counter to 0 while staying `Closed`. -/
theorem c1_closed_streak_opens_at_threshold (cfg : CBConfig) (now t n : Nat)
    (hpos : 0 < cfg.failure_threshold) (hn : n < cfg.failure_threshold) :
    (failStreak cfg now n ⟨.Closed, 0, 0, t⟩).state = .Closed ∧
    (failStreak cfg now n ⟨.Closed, 0, 0, t⟩).failures = n ∧
    (failStreak cfg now cfg.failure_threshold ⟨.Closed, 0, 0, t⟩).state = .Open ∧
    (∀ s : CB, s.state = .Closed →
      (record_success cfg s).state = .Closed ∧ (record_success cfg s).failures = 0) := by
  refine ⟨?_, ?_, ?_, ?_⟩
  · rw [failStreak_closed_eq cfg now t n hn]
  · rw [failStreak_closed_eq cfg now t n hn]
  · obtain ⟨m, hm⟩ : ∃ m, cfg.failure_threshold = m + 1 :=
      ⟨cfg.failure_threshold - 1, by omega⟩
    have hmlt : m < cfg.failure_threshold := by omega
    have hstep : failStreak cfg now (m + 1) ⟨.Closed, 0, 0, t⟩ =
        record_failure cfg now (failStreak cfg now m ⟨.Closed, 0, 0, t⟩) := by
      simp [failStreak, Function.iterate_succ_apply']
    rw [hm, hstep, failStreak_closed_eq cfg now t m hmlt]
    have hge : m + 1 ≥ cfg.failure_threshold := by omega
    simp [record_failure, hge, transition_to_open]
  · intro s hs
    constructor <;> simp [record_success, hs]

/-- Witness for C1 at `failure_threshold = 3`, `n = 2`. -/
theorem c1_witness :
    (0 < 3 ∧ 2 < 3) ∧
    ((failStreak ⟨3, 2, 60⟩ 100 2 ⟨.Closed, 0, 0, 0⟩).state = .Closed ∧
     (failStreak ⟨3, 2, 60⟩ 100 2 ⟨.Closed, 0, 0, 0⟩).failures = 2 ∧
     (failStreak ⟨3, 2, 60⟩ 100 3 ⟨.Closed, 0, 0, 0⟩).state = .Open ∧
     (∀ s : CB, s.state = .Closed →
       (record_success ⟨3, 2, 60⟩ s).state = .Closed ∧
       (record_success ⟨3, 2, 60⟩ s).failures = 0)) :=
  ⟨⟨by decide, by decide⟩,
   c1_closed_streak_opens_at_threshold ⟨3, 2, 60⟩ 100 0 2 (by decide) (by decide)⟩

/-- C2 counterexample: with `failure_threshold = 2`, the second recorded
failure performs the `Closed → Open` transition, yet afterwards the
failure counter is 2 and the success counter keeps its old value 3 —
the counters are not reset on this transition. -/
theorem c2_counterexample :
    (record_failure ⟨2, 2, 60⟩ 50 ⟨.Closed, 1, 3, 0⟩).state = .Open ∧
    (record_failure ⟨2, 2, 60⟩ 50 ⟨.Closed, 1, 3, 0⟩).failures = 2 ∧
    (record_failure ⟨2, 2, 60⟩ 50 ⟨.Closed, 1, 3, 0⟩).successes = 3 := by
  refine ⟨?_, ?_, ?_⟩ <;> decide

/-- C2 amended: the transition into `Closed` resets both counters; the
transition into `HalfOpen` resets only the success counter and keeps the
failure counter; the transition into `Open` resets neither counter (it
only records the open timestamp). -/
theorem c2_transition_counter_resets (s : CB) (now : Nat) :
    ((transition_to_closed s).failures = 0 ∧ (transition_to_closed s).successes = 0) ∧
    ((transition_to_half_open s).successes = 0 ∧
     (transition_to_half_open s).failures = s.failures) ∧
    ((transition_to_open now s).failures = s.failures ∧
     (transition_to_open now s).successes = s.successes ∧
     (transition_to_open now s).last_failure_time = now) := by
  refine ⟨⟨rfl, rfl⟩, ⟨rfl, rfl⟩, rfl, rfl, rfl⟩

end CircuitBreaker

namespace Retry

/-- `RetryConfig` from `resilience/retry.rs`. Durations (`f64` seconds in
the Rust code) are modelled exactly over `ℚ`. -/
structure RetryConfig where
  max_retries : Nat
  initial_backoff : ℚ
  max_backoff : ℚ
  multiplier : ℚ
deriving Repr

/-- `RetryPolicy::calculate_backoff`: multiply the current backoff by the
multiplier and cap it at `max_backoff`. -/
def calculate_backoff (cfg : RetryConfig) (current : ℚ) : ℚ :=
  min (current * cfg.multiplier) cfg.max_backoff

/-- The duration `RetryPolicy::execute` sleeps before re-invocation `n`
(0-indexed): the local `backoff` starts at `initial_backoff` and is passed
through `calculate_backoff` after each sleep. -/
def executeSleep (cfg : RetryConfig) : Nat → ℚ
  | 0 => cfg.initial_backoff
  | n + 1 => calculate_backoff cfg (executeSleep cfg n)

/-- `ExponentialBackoff::duration_for_attempt`:
`initial_backoff * multiplier.powi(attempt - 1)`, capped at `max_backoff`.
The Rust exponent is the signed integer `attempt as i32 - 1`, so attempt
0 uses the exponent `-1`. -/
def duration_for_attempt (cfg : RetryConfig) (attempt : Nat) : ℚ :=
  min (cfg.initial_backoff * cfg.multiplier ^ ((attempt : ℤ) - 1)) cfg.max_backoff

/-- C7 counterexample: with `initial_backoff = 1 s`, `multiplier = 2`,
`max_backoff = 60 s` (the configuration of the code's own unit test),
`duration_for_attempt 1` evaluates to `1`, whereas the claim's 0-indexed
formula `min(initial · multiplier^1, max)` evaluates to `2`; the function
is 1-indexed, not 0-indexed. -/
theorem c7_counterexample :
    duration_for_attempt ⟨3, 1, 60, 2⟩ 1 = 1 ∧
    min ((1 : ℚ) * 2 ^ (1 : ℕ)) 60 = 2 := by
  constructor
  · simp [duration_for_attempt]
  · norm_num

lemma executeSleep_eq (cfg : RetryConfig)
    (h0 : 0 ≤ cfg.initial_backoff) (hle : cfg.initial_backoff ≤ cfg.max_backoff)
    (hm : 1 ≤ cfg.multiplier) (n : Nat) :
    executeSleep cfg n = min (cfg.initial_backoff * cfg.multiplier ^ n) cfg.max_backoff := by
  have hmax : 0 ≤ cfg.max_backoff := le_trans h0 hle
  induction n with
  | zero => simp [executeSleep, min_eq_left, hle]
  | succ k ih =>
      rw [executeSleep, calculate_backoff, ih]
      rcases le_total (cfg.initial_backoff * cfg.multiplier ^ k) cfg.max_backoff with h | h
      · rw [min_eq_left h, pow_succ, ← mul_assoc]
      · rw [min_eq_right h]
        have h1 : cfg.max_backoff ≤ cfg.max_backoff * cfg.multiplier :=
          le_mul_of_one_le_right hmax hm
        have h2 : 0 ≤ cfg.initial_backoff * cfg.multiplier ^ k :=
          mul_nonneg h0 (pow_nonneg (le_trans zero_le_one hm) k)
        have h3 : cfg.initial_backoff * cfg.multiplier ^ k ≤
            cfg.initial_backoff * cfg.multiplier ^ (k + 1) := by
          rw [pow_succ, ← mul_assoc]
          exact le_mul_of_one_le_right h2 hm
        rw [min_eq_right h1, min_eq_right (le_trans h h3)]

/-- C7 amended: the sleep `RetryPolicy::execute` performs before
re-invocation `n` (0-indexed) is `min(initial_backoff · multiplier^n,
max_backoff)` (for a non-negative initial backoff not exceeding the cap
and a multiplier ≥ 1), but `ExponentialBackoff::duration_for_attempt` is
1-indexed: it is `duration_for_attempt (n+1)`, not
`duration_for_attempt n`, that returns this value. -/
theorem c7_backoff_formula (cfg : RetryConfig)
    (h0 : 0 ≤ cfg.initial_backoff) (hle : cfg.initial_backoff ≤ cfg.max_backoff)
    (hm : 1 ≤ cfg.multiplier) (n : Nat) :
    executeSleep cfg n = min (cfg.initial_backoff * cfg.multiplier ^ n) cfg.max_backoff ∧
    duration_for_attempt cfg (n + 1) =
      min (cfg.initial_backoff * cfg.multiplier ^ n) cfg.max_backoff := by
  refine ⟨executeSleep_eq cfg h0 hle hm n, ?_⟩
  have : ((n + 1 : Nat) : ℤ) - 1 = (n : ℤ) := by push_cast; ring
  rw [duration_for_attempt, this, zpow_natCast]

/-- Witness for C7's amended statement at the unit-test configuration and
`n = 2`: the third sleep is 4 seconds. -/
theorem c7_witness :
    ((0 : ℚ) ≤ 1 ∧ (1 : ℚ) ≤ 60 ∧ (1 : ℚ) ≤ 2) ∧
    (executeSleep ⟨3, 1, 60, 2⟩ 2 = min ((1 : ℚ) * 2 ^ (2 : ℕ)) 60 ∧
     duration_for_attempt ⟨3, 1, 60, 2⟩ 3 = min ((1 : ℚ) * 2 ^ (2 : ℕ)) 60) :=
  ⟨⟨by norm_num, by norm_num, by norm_num⟩,
   c7_backoff_formula ⟨3, 1, 60, 2⟩ (by norm_num) (by norm_num) (by norm_num) 2⟩

end Retry

namespace RedisKeys

/-- `Vec::join(":")` from `RedisKey::from_parts`: interpose a single colon
between consecutive segments. -/
def joinColon : List String → String
  | [] => ""
  | [s] => s
  | s :: rest => s ++ ":" ++ joinColon rest

/-- `RedisKey::from_parts`: drop empty segments, then join the rest with a
single colon. -/
def from_parts (parts : List String) : String :=
  joinColon (parts.filter (fun s => s ≠ ""))

/-- `RedisKey::with_prefix` (renamed: the namespace argument is called
`ns` here): prepend the namespace prefix segment and build via
`from_parts`. -/
def with_ns (ns : String) (parts : List String) : String :=
  from_parts (ns :: parts)

/-- `RedisKey::cache`. -/
def cache_key (ns key : String) : String := with_ns ns ["cache", key]

/-- `RedisKey::session`. -/
def session_key (ns session_id : String) : String := with_ns ns ["session", session_id]

/-- `RedisKey::user_sessions`. -/
def user_sessions_key (ns user_id : String) : String :=
  with_ns ns ["user_sessions", user_id]

/-- `RedisKey::rate_limit`. -/
def rate_limit_key (ns key : String) : String := with_ns ns ["rate_limit", key]

/-- `RedisKey::lock`. -/
def lock_key (ns resource : String) : String := with_ns ns ["lock", resource]

/-- `OtpPurpose` from `redis/otp.rs`. -/
inductive OtpPurpose where
  | EmailVerification
  | PhoneVerification
  | PasswordReset
  | MfaLogin
  | ChangePhone
  | ChangeEmail
  | MfaSetup
deriving DecidableEq, Repr

/-- `OtpPurpose::as_str`. -/
def OtpPurpose.as_str : OtpPurpose → String
  | .EmailVerification => "email_verification"
  | .PhoneVerification => "phone_verification"
  | .PasswordReset => "password_reset"
  | .MfaLogin => "mfa_login"
  | .ChangePhone => "change_phone"
  | .ChangeEmail => "change_email"
  | .MfaSetup => "mfa_setup"

/-- The prefix `OtpCache::new` hands to its inner `RedisCache`:
`format!("{}:otp", prefix)`. -/
def otpCacheNs (ns : String) : String := ns ++ ":otp"

/-- `OtpCache::otp_key`: `RedisKey::from_parts([cache.prefix(),
purpose.as_str(), identifier])`, where `cache.prefix()` is the inner
cache's `{ns}:otp` prefix. -/
def otp_key (ns : String) (purpose : OtpPurpose) (identifier : String) : String :=
  from_parts [otpCacheNs ns, purpose.as_str, identifier]

/-- `RedisCache::key`: every key the cache touches goes through
`RedisKey::cache(self.prefix, key)`. -/
def redisCacheStoredKey (ns key : String) : String := cache_key ns key

/-- The key actually sent to the store when `OtpCache::store`/`verify`
call `self.cache.set`/`get` with `otp_key` as the logical key: the inner
`RedisCache` (whose prefix is `{ns}:otp`) wraps the already fully-built
`otp_key` in `RedisKey::cache` a second time. -/
def otpStoredKey (ns : String) (purpose : OtpPurpose) (identifier : String) : String :=
  redisCacheStoredKey (otpCacheNs ns) (otp_key ns purpose identifier)

/-- C5 counterexample: for namespace `app`, purpose `email_verification`
and identifier `id`, the OTP record is stored under
`app:otp:cache:app:otp:email_verification:id`, not under the claimed
`app:otp:email_verification:id`. -/
theorem c5_counterexample :
    otpStoredKey "app" .EmailVerification "id" =
      "app:otp:cache:app:otp:email_verification:id" ∧
    otpStoredKey "app" .EmailVerification "id" ≠ "app:otp:email_verification:id" := by
  constructor
  · rfl
  · decide

lemma OtpPurpose.as_str_ne_empty (p : OtpPurpose) : p.as_str ≠ "" := by
  cases p <;> decide

lemma from_parts_three (a b c : String) (ha : a ≠ "") (hb : b ≠ "") (hc : c ≠ "") :
    from_parts [a, b, c] = a ++ ":" ++ b ++ ":" ++ c := by
  simp only [from_parts, List.filter, ha, hb, hc, decide_not]
  simp [joinColon, String.append_assoc]

/-- C5 amended: keys built through the `RedisKey` constructors do follow
`{ns}:{domain}:{identifier}` with a single-colon join and empty segments
dropped (`domain ∈ cache | session | user_sessions | rate_limit | lock`),
but the OTP verifier does not store its record under
`{ns}:otp:{purpose}:{identifier}`: `OtpCache` builds that full key and
then passes it through `RedisCache` (constructed with prefix `{ns}:otp`),
which wraps it in `RedisKey::cache` again, so the record lives under the
doubly-prefixed key `{ns}:otp:cache:{ns}:otp:{purpose}:{identifier}`. -/
theorem c5_key_shapes (ns id : String) (purpose : OtpPurpose)
    (hns : ns ≠ "") (hid : id ≠ "") :
    cache_key ns id = ns ++ ":cache:" ++ id ∧
    session_key ns id = ns ++ ":session:" ++ id ∧
    user_sessions_key ns id = ns ++ ":user_sessions:" ++ id ∧
    rate_limit_key ns id = ns ++ ":rate_limit:" ++ id ∧
    lock_key ns id = ns ++ ":lock:" ++ id ∧
    otpStoredKey ns purpose id =
      ns ++ ":otp:cache:" ++ ns ++ ":otp:" ++ purpose.as_str ++ ":" ++ id := by
  have hd : ∀ d : String, d ≠ "" → with_ns ns [d, id] = ns ++ ":" ++ d ++ ":" ++ id := by
    intro d hdne
    rw [with_ns, from_parts_three ns d id hns hdne hid]
  have hconv : ∀ d m : String, ":" ++ d ++ ":" = m →
      ns ++ ":" ++ d ++ ":" ++ id = ns ++ m ++ id := by
    intro d m h
    subst h
    simp [String.append_assoc]
  have hotpns : otpCacheNs ns ≠ "" := by
    intro h
    have hlen : (otpCacheNs ns).length = 0 := by rw [h]; rfl
    have h4 : (":otp" : String).length = 4 := rfl
    rw [otpCacheNs, String.length_append, h4] at hlen
    omega
  refine ⟨(hd "cache" (by decide)).trans (hconv "cache" ":cache:" rfl),
    (hd "session" (by decide)).trans (hconv "session" ":session:" rfl),
    (hd "user_sessions" (by decide)).trans (hconv "user_sessions" ":user_sessions:" rfl),
    (hd "rate_limit" (by decide)).trans (hconv "rate_limit" ":rate_limit:" rfl),
    (hd "lock" (by decide)).trans (hconv "lock" ":lock:" rfl), ?_⟩
  have hinner : otp_key ns purpose id = otpCacheNs ns ++ ":" ++ purpose.as_str ++ ":" ++ id :=
    from_parts_three _ _ _ hotpns (OtpPurpose.as_str_ne_empty purpose) hid
  have hkeyne : otp_key ns purpose id ≠ "" := by
    intro h
    have hlen : (otp_key ns purpose id).length = 0 := by rw [h]; rfl
    rw [hinner] at hlen
    have hc : (":" : String).length = 1 := rfl
    simp only [String.length_append, hc] at hlen
    omega
  have houter : otpStoredKey ns purpose id =
      otpCacheNs ns ++ ":" ++ "cache" ++ ":" ++ otp_key ns purpose id := by
    rw [otpStoredKey, redisCacheStoredKey, cache_key, with_ns]
    exact from_parts_three _ _ _ hotpns (by decide) hkeyne
  rw [houter, hinner, otpCacheNs]
  apply String.ext
  have d1 : (":otp" : String).data = [':', 'o', 't', 'p'] := rfl
  have d2 : (":" : String).data = [':'] := rfl
  have d3 : ("cache" : String).data = ['c', 'a', 'c', 'h', 'e'] := rfl
  have d4 : (":otp:cache:" : String).data =
      [':', 'o', 't', 'p', ':', 'c', 'a', 'c', 'h', 'e', ':'] := rfl
  have d5 : (":otp:" : String).data = [':', 'o', 't', 'p', ':'] := rfl
  simp [String.data_append, d1, d2, d3, d4, d5]

end RedisKeys

namespace RedisKeys

/-- Witness for C5's amended statement at `ns = "app"`, `id = "id"`,
purpose `password_reset`. -/
theorem c5_witness :
    (("app" : String) ≠ "" ∧ ("id" : String) ≠ "") ∧
    (cache_key "app" "id" = "app" ++ ":cache:" ++ "id" ∧
     session_key "app" "id" = "app" ++ ":session:" ++ "id" ∧
     user_sessions_key "app" "id" = "app" ++ ":user_sessions:" ++ "id" ∧
     rate_limit_key "app" "id" = "app" ++ ":rate_limit:" ++ "id" ∧
     lock_key "app" "id" = "app" ++ ":lock:" ++ "id" ∧
     otpStoredKey "app" .PasswordReset "id" =
       "app" ++ ":otp:cache:" ++ "app" ++ ":otp:" ++
         OtpPurpose.as_str .PasswordReset ++ ":" ++ "id") :=
  ⟨⟨by decide, by decide⟩,
   c5_key_shapes "app" "id" .PasswordReset (by decide) (by decide)⟩

end RedisKeys

namespace OtpGen

/-- The per-position digit draw of `OtpCache::generate_numeric`:
`rand::random::<u8>() % 10`, i.e. a uniformly random byte reduced mod
10. -/
def digit_of_byte (b : Nat) : Nat := (b % 256) % 10

/-- `OtpCache::generate_numeric` over an explicit stream of random bytes:
one digit per byte, each obtained by the mod-10 reduction above. -/
def generate_numeric (bytes : List Nat) : List Nat :=
  bytes.map digit_of_byte

/-- How many of the 256 values of a uniform 8-bit source map to the digit
`d` under the generator's reduction. -/
def digit_source_count (d : Nat) : Nat :=
  ((List.range 256).filter (fun b => digit_of_byte b = d)).length

/-- C9 (refuted — the code is the biased modulo reduction the spec
forbids): over a uniform 8-bit source, digits 0–5 are each hit by 26 of
the 256 byte values while digits 6–9 are each hit by only 25, so the
per-digit distribution is not uniform; in particular the counts for
digits 0 and 9 differ. -/
theorem c9_biased_modulo_counts :
    digit_source_count 0 = 26 ∧ digit_source_count 5 = 26 ∧
    digit_source_count 6 = 25 ∧ digit_source_count 9 = 25 ∧
    digit_source_count 0 ≠ digit_source_count 9 := by
  refine ⟨?_, ?_, ?_, ?_, ?_⟩ <;> decide

end OtpGen

namespace RateLimiter

/-- State of one rate-limit key at the store: the per-key Redis sorted set
(list of (score in epoch-milliseconds, member string); members are
pairwise distinct) together with the key's expiry in seconds. -/
structure KeyState where
  zset : List (Int × String)
  ttl : Option Nat
deriving DecidableEq, Repr

/-- `ZREMRANGEBYSCORE key -inf bound`: drop every entry whose score is ≤
`bound` (the Lua script calls it with `bound = now - window * 1000`). -/
def zremUpto (bound : Int) (entries : List (Int × String)) : List (Int × String) :=
  entries.filter (fun e => decide (bound < e.1))

/-- `ZADD key score member`: update the score if the member is already
present, append the member otherwise. -/
def zadd (score : Int) (member : String) (entries : List (Int × String)) :
    List (Int × String) :=
  if entries.any (fun e => e.2 == member) then
    entries.map (fun e => if e.2 == member then (score, member) else e)
  else
    entries ++ [(score, member)]

/-- The atomic Lua script of `RedisRateLimiter::is_allowed`, acting on one
key: prune entries older than `now - window*1000` ms, count, and if the
count is below the limit add one uniquely-tagged entry at score `now`
(the Rust code builds the member as `now .. ':' .. math.random(1000000)`;
the member string is passed explicitly here), set the key's expiry to
`window`, and return `(1, limit - count - 1)`; otherwise return
`(0, 0)`. -/
def is_allowed_script (limit window : Nat) (now : Int) (member : String)
    (s : KeyState) : KeyState × (Bool × Nat) :=
  let pruned := zremUpto (now - (window : Int) * 1000) s.zset
  let count := pruned.length
  if count < limit then
    (⟨zadd now member pruned, some window⟩, (true, limit - count - 1))
  else
    (⟨pruned, s.ttl⟩, (false, 0))

/-- The atomic Lua script of `RedisRateLimiter::remaining`: same pruning,
then report `limit - count` (or 0) without adding an entry. -/
def remaining_script (limit window : Nat) (now : Int) (s : KeyState) :
    KeyState × Nat :=
  let pruned := zremUpto (now - (window : Int) * 1000) s.zset
  let count := pruned.length
  (⟨pruned, s.ttl⟩, if count < limit then limit - count else 0)

/-- A burst of calls to `is_allowed` on one key, all at time `now`, one
per member tag, collecting the `(allowed, remaining)` answers. -/
def run_calls (limit window : Nat) (now : Int) :
    List String → KeyState → KeyState × List (Bool × Nat)
  | [], s => (s, [])
  | m :: ms, s =>
      let r := is_allowed_script limit window now m s
      let rest := run_calls limit window now ms r.1
      (rest.1, r.2 :: rest.2)

lemma zremUpto_fresh (window : Nat) (hw : 0 < window) (now : Int)
    (done : List String) :
    zremUpto (now - (window : Int) * 1000) (done.map (fun m => (now, m))) =
      done.map (fun m => (now, m)) := by
  rw [zremUpto, List.filter_eq_self]
  intro e he
  obtain ⟨m, _, rfl⟩ := List.mem_map.mp he
  simp only [decide_eq_true_eq]
  have : (0 : Int) < (window : Int) * 1000 := by positivity
  omega

lemma zadd_fresh (now : Int) (m : String) (done : List String) (hm : m ∉ done) :
    zadd now m (done.map (fun x => (now, x))) =
      (done ++ [m]).map (fun x => (now, x)) := by
  have hany : (done.map (fun x => (now, x))).any (fun e => e.2 == m) = false := by
    rw [List.any_eq_false]
    intro e he
    obtain ⟨x, hx, rfl⟩ := List.mem_map.mp he
    intro h
    exact hm (eq_of_beq h ▸ hx)
  rw [zadd, if_neg (by simp [hany]), List.map_append]
  rfl

lemma run_calls_spec (limit window : Nat) (now : Int) (hw : 0 < window)
    (members : List String) : ∀ (done : List String) (ttl : Option Nat),
    (done ++ members).Nodup → done.length + members.length ≤ limit →
    (run_calls limit window now members ⟨done.map (fun m => (now, m)), ttl⟩).2 =
      (List.range members.length).map (fun i => (true, limit - done.length - 1 - i)) ∧
    (run_calls limit window now members ⟨done.map (fun m => (now, m)), ttl⟩).1.zset =
      (done ++ members).map (fun m => (now, m)) := by
  induction members with
  | nil => intro done ttl _ _; simp [run_calls]
  | cons m ms ih =>
      intro done ttl hnd hle
      have hm : m ∉ done := by
        intro hmem
        exact (List.disjoint_of_nodup_append hnd) hmem (List.mem_cons_self m ms)
      have hstep : is_allowed_script limit window now m
          ⟨done.map (fun x => (now, x)), ttl⟩ =
          (⟨(done ++ [m]).map (fun x => (now, x)), some window⟩,
            (true, limit - done.length - 1)) := by
        rw [is_allowed_script]
        simp only [zremUpto_fresh window hw now done, List.length_map]
        rw [if_pos (by simp at hle; omega), zadd_fresh now m done hm]
      have hnd' : ((done ++ [m]) ++ ms).Nodup := by
        rw [List.append_assoc]; simpa using hnd
      have hle' : (done ++ [m]).length + ms.length ≤ limit := by
        simp only [List.length_append, List.length_cons, List.length_nil] at hle ⊢
        omega
      obtain ⟨ih1, ih2⟩ := ih (done ++ [m]) (some window) hnd' hle'
      constructor
      · show (run_calls limit window now (m :: ms)
            ⟨done.map (fun x => (now, x)), ttl⟩).2 = _
        rw [run_calls]
        simp only [hstep, ih1, List.length_cons]
        rw [List.range_succ_eq_map, List.map_cons, List.map_map]
        simp only [List.cons.injEq]
        refine ⟨by simp, ?_⟩
        apply List.map_congr_left
        intro i hi
        simp only [Function.comp_apply, List.length_append, List.length_cons,
          List.length_nil, Prod.mk.injEq, true_and]
        omega
      · show (run_calls limit window now (m :: ms)
            ⟨done.map (fun x => (now, x)), ttl⟩).1.zset = _
        rw [run_calls]
        simp only [hstep, ih2]
        rw [List.append_assoc]
        rfl

end RateLimiter

namespace RateLimiter

/-- C3: single step — with `c` the post-prune cardinality, if `c < limit`
the script admits (inserting exactly one entry when the tag is fresh) and
reports `limit - c - 1` remaining, else it admits nothing and reports
`(false, 0)`; burst — `limit` calls in one window from an empty key all
succeed with strictly decreasing remaining `limit-1, …, 0`, and the
`(limit+1)`-th in-window call is denied. -/
theorem c3_sliding_window_exact (limit window : Nat) (now : Int)
    (s : KeyState) (member : String) (members : List String) (m' : String)
    (hw : 0 < window) (hnd : members.Nodup) (hlen : members.length = limit) :
    ((zremUpto (now - (window : Int) * 1000) s.zset).length < limit →
      (is_allowed_script limit window now member s).2 =
        (true, limit - (zremUpto (now - (window : Int) * 1000) s.zset).length - 1) ∧
      (member ∉ (zremUpto (now - (window : Int) * 1000) s.zset).map Prod.snd →
        (is_allowed_script limit window now member s).1.zset.length =
          (zremUpto (now - (window : Int) * 1000) s.zset).length + 1)) ∧
    (limit ≤ (zremUpto (now - (window : Int) * 1000) s.zset).length →
      (is_allowed_script limit window now member s).2 = (false, 0) ∧
      (is_allowed_script limit window now member s).1.zset =
        zremUpto (now - (window : Int) * 1000) s.zset) ∧
    (run_calls limit window now members ⟨[], none⟩).2 =
      (List.range limit).map (fun i => (true, limit - 1 - i)) ∧
    (is_allowed_script limit window now m'
        (run_calls limit window now members ⟨[], none⟩).1).2 = (false, 0) := by
  have hspec := run_calls_spec limit window now hw members [] none
    (by simpa using hnd) (by simp [hlen])
  refine ⟨?_, ?_, ?_, ?_⟩
  · intro hc
    constructor
    · rw [is_allowed_script]
      simp only [if_pos hc]
    · intro hfresh
      rw [is_allowed_script]
      simp only [if_pos hc]
      have hany : ((zremUpto (now - (window : Int) * 1000) s.zset).any
          (fun e => e.2 == member)) = false := by
        rw [List.any_eq_false]
        intro e he hbeq
        exact hfresh (List.mem_map.mpr ⟨e, he, eq_of_beq hbeq⟩)
      rw [zadd, if_neg (by simp [hany])]
      simp
  · intro hc
    rw [is_allowed_script]
    simp only [if_neg (by omega : ¬ (zremUpto (now - (window : Int) * 1000) s.zset).length < limit)]
    exact ⟨trivial, trivial⟩
  · have h := hspec.1
    rw [show (⟨[], none⟩ : KeyState) = ⟨([] : List String).map (fun m => (now, m)), none⟩ from rfl]
    rw [h, hlen]
    simp
  · have h := hspec.2
    simp only [List.nil_append] at h
    rw [show (⟨[], none⟩ : KeyState) = ⟨([] : List String).map (fun m => (now, m)), none⟩ from rfl]
    rw [is_allowed_script]
    simp only [h, zremUpto_fresh window hw now members, List.length_map, hlen]
    rw [if_neg (lt_irrefl limit)]

/-- Witness for C3 at `limit = 3`, `window = 1`, `now = 5000`, burst
members `a, b, c`, extra tag `d`, and a key that already holds one stale
entry. -/
theorem c3_witness :
    (0 < 1 ∧ (["a", "b", "c"] : List String).Nodup ∧
      (["a", "b", "c"] : List String).length = 3) ∧
    (((zremUpto ((5000 : Int) - (1 : Int) * 1000)
          (KeyState.mk [((4000 : Int), "x")] (some 1)).zset).length < 3 →
      (is_allowed_script 3 1 5000 "y" ⟨[((4000 : Int), "x")], some 1⟩).2 =
        (true, 3 - (zremUpto ((5000 : Int) - (1 : Int) * 1000)
          (KeyState.mk [((4000 : Int), "x")] (some 1)).zset).length - 1) ∧
      ("y" ∉ (zremUpto ((5000 : Int) - (1 : Int) * 1000)
          (KeyState.mk [((4000 : Int), "x")] (some 1)).zset).map Prod.snd →
        (is_allowed_script 3 1 5000 "y" ⟨[((4000 : Int), "x")], some 1⟩).1.zset.length =
          (zremUpto ((5000 : Int) - (1 : Int) * 1000)
            (KeyState.mk [((4000 : Int), "x")] (some 1)).zset).length + 1)) ∧
    (3 ≤ (zremUpto ((5000 : Int) - (1 : Int) * 1000)
          (KeyState.mk [((4000 : Int), "x")] (some 1)).zset).length →
      (is_allowed_script 3 1 5000 "y" ⟨[((4000 : Int), "x")], some 1⟩).2 = (false, 0) ∧
      (is_allowed_script 3 1 5000 "y" ⟨[((4000 : Int), "x")], some 1⟩).1.zset =
        zremUpto ((5000 : Int) - (1 : Int) * 1000)
          (KeyState.mk [((4000 : Int), "x")] (some 1)).zset) ∧
    (run_calls 3 1 5000 ["a", "b", "c"] ⟨[], none⟩).2 =
      (List.range 3).map (fun i => (true, 3 - 1 - i)) ∧
    (is_allowed_script 3 1 5000 "d"
        (run_calls 3 1 5000 ["a", "b", "c"] ⟨[], none⟩).1).2 = (false, 0)) :=
  ⟨⟨by decide, by decide, by decide⟩,
   c3_sliding_window_exact 3 1 5000 ⟨[((4000 : Int), "x")], some 1⟩ "y"
     ["a", "b", "c"] "d" (by decide) (by decide) (by decide)⟩

/-- C6 counterexample: a key holding a single expired entry (score 0,
window 1 s, now 2000 ms): `remaining` rewrites the sorted set to the
empty set, so it does remove entries rather than leaving the set exactly
as found. -/
theorem c6_counterexample :
    (remaining_script 5 1 2000 ⟨[((0 : Int), "a")], some 1⟩).1.zset = [] ∧
    (remaining_script 5 1 2000 ⟨[((0 : Int), "a")], some 1⟩).1.zset ≠
      (KeyState.mk [((0 : Int), "a")] (some 1)).zset := by
  exact ⟨rfl, by decide⟩

/-- C6 amended: `remaining` admits no event — it never adds an entry (the
resulting set is a sublist of the prior one), keeps every live entry
(score within the window) and the key's expiry, and reports the would-be
remaining count — but it is not fully read-only: it destructively removes
exactly the expired entries (score ≤ now − window·1000), the same pruning
`is_allowed` performs. -/
theorem c6_remaining_no_admit_but_prunes (limit window : Nat) (now : Int)
    (s : KeyState) :
    (remaining_script limit window now s).1.zset =
      s.zset.filter (fun e => decide (now - (window : Int) * 1000 < e.1)) ∧
    (remaining_script limit window now s).1.zset.Sublist s.zset ∧
    (∀ e ∈ s.zset, now - (window : Int) * 1000 < e.1 →
      e ∈ (remaining_script limit window now s).1.zset) ∧
    (remaining_script limit window now s).1.ttl = s.ttl ∧
    (remaining_script limit window now s).2 =
      (if (zremUpto (now - (window : Int) * 1000) s.zset).length < limit then
        limit - (zremUpto (now - (window : Int) * 1000) s.zset).length else 0) := by
  refine ⟨rfl, List.filter_sublist _, ?_, rfl, rfl⟩
  intro e he hlive
  exact List.mem_filter.mpr ⟨he, by simpa using hlive⟩

end RateLimiter

namespace Otp

/-- `OtpData` from `redis/otp.rs`: code, purpose, attempt counter (`u8`;
it never exceeds `max_attempts ≤ 255`, so `Nat` is exact), creation
time. -/
structure OtpData where
  code : String
  purpose : RedisKeys.OtpPurpose
  attempts : Nat
  created_at : Int
deriving DecidableEq, Repr

/-- `OtpVerifyResult` from `redis/otp.rs`. -/
inductive OtpVerifyResult where
  | Valid
  | Invalid (attempts_remaining : Nat)
  | MaxAttemptsExceeded
  | NotFound
deriving DecidableEq, Repr

/-- `OtpCache::store`: write `OtpData{code, purpose, attempts: 0,
created_at: now}` under the OTP key with the caller's `ttl` (seconds).
The record state for a single `(identifier, purpose)` key is modelled as
`Option (OtpData × Nat)`: the stored data plus its TTL, or `none` when
absent. -/
def store (purpose : RedisKeys.OtpPurpose) (code : String) (now : Int)
    (ttl : Nat) : Option (OtpData × Nat) :=
  some (⟨code, purpose, 0, now⟩, ttl)

/-- `OtpCache::verify`, as the net effect on the record plus the returned
result. Absent record: `NotFound`. Matching code: delete and return
`Valid` (or `MaxAttemptsExceeded` when the stored counter already reached
`max_attempts`). Mismatch: increment `attempts` and rewrite the record
with the fixed `Duration::from_secs(300)` TTL; then, if the incremented
counter reached `max_attempts`, delete the just-rewritten record and
return `MaxAttemptsExceeded` (net stored state: absent), else return
`Invalid{attempts_remaining: max_attempts - attempts}`. -/
def verify (max_attempts : Nat) (candidate : String)
    (rec : Option (OtpData × Nat)) : Option (OtpData × Nat) × OtpVerifyResult :=
  match rec with
  | none => (none, .NotFound)
  | some (data, _ttl) =>
      if data.code = candidate then
        if data.attempts ≥ max_attempts then (none, .MaxAttemptsExceeded)
        else (none, .Valid)
      else
        let updated : OtpData := { data with attempts := data.attempts + 1 }
        if updated.attempts ≥ max_attempts then (none, .MaxAttemptsExceeded)
        else (some (updated, 300), .Invalid (max_attempts - updated.attempts))

/-- `n` consecutive `verify` calls with the same wrong candidate,
tracking only the stored record. -/
def wrongStreak (max_attempts : Nat) (wrong : String) (n : Nat)
    (rec : Option (OtpData × Nat)) : Option (OtpData × Nat) :=
  (fun r => (verify max_attempts wrong r).1)^[n] rec

lemma wrongStreak_eq (M : Nat) (purpose : RedisKeys.OtpPurpose)
    (code wrong : String) (hne : code ≠ wrong) (now : Int) (ttl : Nat) :
    ∀ i, i < M → wrongStreak M wrong i (store purpose code now ttl) =
      some (⟨code, purpose, i, now⟩, if i = 0 then ttl else 300) := by
  intro i
  induction i with
  | zero => intro _; simp [wrongStreak, store]
  | succ k ih =>
      intro hk
      have hstep : wrongStreak M wrong (k + 1) (store purpose code now ttl) =
          (verify M wrong (wrongStreak M wrong k (store purpose code now ttl))).1 := by
        simp [wrongStreak, Function.iterate_succ_apply']
      rw [hstep, ih (by omega), verify]
      simp only [if_neg hne, if_neg (by omega : ¬ k + 1 ≥ M)]
      simp

/-- C4: for `max_attempts = M ≥ 1`, after issuing a code: verifying the
exact code returns `Valid` exactly once and deletes the record, so a
second verify returns `NotFound`; verifying a wrong code returns
`Invalid` with `attempts_remaining` counting down `M-1, M-2, …, 1` on the
first `M-1` calls (the `(i+1)`-th call reports `M-(i+1)` remaining) and
`MaxAttemptsExceeded` on the `M`-th call, which deletes the record —
i.e. the descending range `max_attempts-1 .. 0` of the spec, read as the
half-open interval it denotes, paired with deletion at exhaustion. -/
theorem c4_verify_lifecycle (M : Nat) (purpose : RedisKeys.OtpPurpose)
    (code wrong : String) (now : Int) (ttl : Nat)
    (hM : 1 ≤ M) (hne : code ≠ wrong) :
    (verify M code (store purpose code now ttl)).2 = .Valid ∧
    (verify M code (store purpose code now ttl)).1 = none ∧
    (verify M code (verify M code (store purpose code now ttl)).1).2 = .NotFound ∧
    (∀ i, i + 1 < M →
      (verify M wrong (wrongStreak M wrong i (store purpose code now ttl))).2 =
        .Invalid (M - (i + 1))) ∧
    (verify M wrong (wrongStreak M wrong (M - 1) (store purpose code now ttl))).2 =
      .MaxAttemptsExceeded ∧
    (verify M wrong (wrongStreak M wrong (M - 1) (store purpose code now ttl))).1 =
      none := by
  have hvalid : verify M code (store purpose code now ttl) = (none, .Valid) := by
    rw [store, verify]
    have h1 : ¬ (0 ≥ M) := by omega
    simp [h1]
  refine ⟨by rw [hvalid], by rw [hvalid], by rw [hvalid]; rfl, ?_, ?_, ?_⟩
  · intro i hi
    rw [wrongStreak_eq M purpose code wrong hne now ttl i (by omega), verify]
    simp only [if_neg hne, if_neg (by omega : ¬ i + 1 ≥ M)]
  · rw [wrongStreak_eq M purpose code wrong hne now ttl (M - 1) (by omega), verify]
    simp only [if_neg hne, if_pos (by omega : M - 1 + 1 ≥ M)]
  · rw [wrongStreak_eq M purpose code wrong hne now ttl (M - 1) (by omega), verify]
    simp only [if_neg hne, if_pos (by omega : M - 1 + 1 ≥ M)]

/-- Witness for C4 at `max_attempts = 3`, code `111111`, wrong candidate
`000000`. -/
theorem c4_witness :
    (1 ≤ 3 ∧ ("111111" : String) ≠ "000000") ∧
    ((verify 3 "111111" (store .MfaLogin "111111" 7 600)).2 = .Valid ∧
     (verify 3 "111111" (store .MfaLogin "111111" 7 600)).1 = none ∧
     (verify 3 "111111" (verify 3 "111111" (store .MfaLogin "111111" 7 600)).1).2 =
       .NotFound ∧
     (∀ i, i + 1 < 3 →
       (verify 3 "000000" (wrongStreak 3 "000000" i (store .MfaLogin "111111" 7 600))).2 =
         .Invalid (3 - (i + 1))) ∧
     (verify 3 "000000" (wrongStreak 3 "000000" (3 - 1) (store .MfaLogin "111111" 7 600))).2 =
       .MaxAttemptsExceeded ∧
     (verify 3 "000000" (wrongStreak 3 "000000" (3 - 1) (store .MfaLogin "111111" 7 600))).1 =
       none) :=
  ⟨⟨by decide, by decide⟩,
   c4_verify_lifecycle 3 .MfaLogin "111111" "000000" 7 600 (by decide) (by decide)⟩

/-- C8 counterexample: a record stored with TTL 60 s, a wrong candidate,
`max_attempts = 5`: the rewritten record carries TTL 300 s, not the 60 s
class it had before the call. -/
theorem c8_counterexample :
    (verify 5 "222222" (some (⟨"111111", .PasswordReset, 0, 0⟩, 60))).1 =
      some (⟨"111111", .PasswordReset, 1, 0⟩, 300) ∧
    (verify 5 "222222" (some (⟨"111111", .PasswordReset, 0, 0⟩, 60))).1 ≠
      some (⟨"111111", .PasswordReset, 1, 0⟩, 60) := by
  exact ⟨rfl, by decide⟩

/-- C8 amended: on a mismatch against a not-yet-exhausted record, the
record is rewritten with `attempts` incremented by one and `code`,
`purpose` and `created_at` unchanged — but its TTL is reset to the fixed
constant 300 seconds (`Duration::from_secs(300)` in `OtpCache::verify`),
not to the remaining TTL class the record had before the call. -/
theorem c8_mismatch_rewrite (M : Nat) (data : OtpData) (ttl : Nat)
    (candidate : String) (hne : data.code ≠ candidate)
    (hlt : data.attempts + 1 < M) :
    (verify M candidate (some (data, ttl))).1 =
      some (⟨data.code, data.purpose, data.attempts + 1, data.created_at⟩, 300) ∧
    (verify M candidate (some (data, ttl))).2 =
      .Invalid (M - (data.attempts + 1)) := by
  rw [verify]
  simp only [if_neg hne, if_neg (by omega : ¬ data.attempts + 1 ≥ M)]
  exact ⟨trivial, trivial⟩

/-- Witness for C8's amended statement: stored TTL 60 s becomes 300 s on
the rewrite. -/
theorem c8_witness :
    (("111111" : String) ≠ "222222" ∧ 0 + 1 < 5) ∧
    ((verify 5 "222222" (some (⟨"111111", .PasswordReset, 0, 0⟩, 60))).1 =
       some (⟨"111111", .PasswordReset, 0 + 1, 0⟩, 300) ∧
     (verify 5 "222222" (some (⟨"111111", .PasswordReset, 0, 0⟩, 60))).2 =
       .Invalid (5 - (0 + 1))) :=
  ⟨⟨by decide, by decide⟩,
   c8_mismatch_rewrite 5 ⟨"111111", .PasswordReset, 0, 0⟩ 60 "222222"
     (by decide) (by decide)⟩

end Otp

namespace Session

/-- A value in the Redis keyspace: a string payload (the serialized
`SessionData` JSON) or a set of members (the user's reverse session
index). -/
inductive RVal where
  | str (payload : String)
  | sset (members : List String)
deriving DecidableEq

/-- The Redis keyspace: each key maps to a value with an optional expiry
in seconds (`none` = no expiry). -/
def Store := String → Option (RVal × Option Nat)

/-- `SET key data EX ttl`. -/
def setEx (st : Store) (key payload : String) (ttl : Nat) : Store :=
  fun k => if k = key then some (.str payload, some ttl) else st k

/-- `SADD key member`: add to an existing set (no expiry change), create
the set (no expiry) when the key is absent; `none` models the WRONGTYPE
command error Redis raises when the key holds a string. -/
def sadd (st : Store) (key member : String) : Option Store :=
  match st key with
  | none => some (fun k => if k = key then some (.sset [member], none) else st k)
  | some (.sset ms, ttl) =>
      some (fun k =>
        if k = key then some (.sset (if member ∈ ms then ms else ms ++ [member]), ttl)
        else st k)
  | some (.str _, _) => none

/-- `EXPIRE key ttl`: reset the expiry of an existing key, leaving its
value untouched; a no-op when the key is absent. -/
def expire (st : Store) (key : String) (ttl : Nat) : Store :=
  fun k => if k = key then (st k).map (fun v => (v.1, some ttl)) else st k

/-- `RedisSessionStore::save_session`: `SET` the primary session key with
the serialized payload and the caller's `ttl`, then `SADD` the session id
into the user's reverse-index set. -/
def save_session (ns : String) (st : Store) (key payload user_id : String)
    (ttl : Nat) : Option Store :=
  sadd (setEx st (RedisKeys.session_key ns key) payload ttl)
    (RedisKeys.user_sessions_key ns user_id) key

/-- `RedisSessionStore::update_activity`: a single
`EXPIRE {ns}:session:{key} 86400`; it never reads or rewrites the
payload. -/
def update_activity (ns : String) (st : Store) (key : String) : Store :=
  expire st (RedisKeys.session_key ns key) 86400

/-- C10: for a session key present in the store, `update_activity` sets
the primary session key's TTL to the fixed constant 86400 seconds while
keeping its value byte-for-byte, touches no other key, and — composed
after a `save_session` with an arbitrary `ttl` — overrides that `ttl`
with 86400 (so it can shorten a session saved with a longer TTL as well
as extend a shorter one) without reading or rewriting the payload. -/
theorem c10_update_activity_fixed_ttl (ns key : String) (st : Store)
    (v : RVal) (t : Option Nat)
    (hpresent : st (RedisKeys.session_key ns key) = some (v, t)) :
    update_activity ns st key (RedisKeys.session_key ns key) = some (v, some 86400) ∧
    (∀ k, k ≠ RedisKeys.session_key ns key → update_activity ns st key k = st k) ∧
    (∀ (st₀ : Store) (st' : Store) (payload user_id : String) (ttl : Nat),
      RedisKeys.user_sessions_key ns user_id ≠ RedisKeys.session_key ns key →
      save_session ns st₀ key payload user_id ttl = some st' →
      update_activity ns st' key (RedisKeys.session_key ns key) =
        some (.str payload, some 86400)) := by
  refine ⟨?_, ?_, ?_⟩
  · rw [update_activity, expire]
    simp [hpresent]
  · intro k hk
    rw [update_activity, expire]
    simp [hk]
  · intro st₀ st' payload user_id ttl hkeys hsave
    have hmid : st' (RedisKeys.session_key ns key) =
        some (.str payload, some ttl) := by
      rw [save_session] at hsave
      rw [sadd] at hsave
      rcases hcase : setEx st₀ (RedisKeys.session_key ns key) payload ttl
          (RedisKeys.user_sessions_key ns user_id) with _ | ⟨v', t'⟩
      · rw [hcase] at hsave
        simp only [Option.some.injEq] at hsave
        rw [← hsave]
        simp only [if_neg (Ne.symm hkeys)]
        rw [setEx]
        simp
      · rcases v' with p | ms
        · rw [hcase] at hsave
          simp at hsave
        · rw [hcase] at hsave
          simp only [Option.some.injEq] at hsave
          rw [← hsave]
          simp only [if_neg (Ne.symm hkeys)]
          rw [setEx]
          simp
    rw [update_activity, expire]
    simp [hmid]

/-- Witness for C10 at `ns = "app"`, session id `s1`, a store holding the
session with TTL 60 s. -/
theorem c10_witness :
    ((fun k => if k = "app:session:s1" then some (RVal.str "payload", some 60)
        else none : Store) (RedisKeys.session_key "app" "s1") =
      some (RVal.str "payload", some 60)) ∧
    (update_activity "app"
        (fun k => if k = "app:session:s1" then some (RVal.str "payload", some 60)
          else none) "s1" (RedisKeys.session_key "app" "s1") =
      some (RVal.str "payload", some 86400) ∧
     (∀ k, k ≠ RedisKeys.session_key "app" "s1" →
       update_activity "app"
         (fun k => if k = "app:session:s1" then some (RVal.str "payload", some 60)
           else none) "s1" k =
       (fun k => if k = "app:session:s1" then some (RVal.str "payload", some 60)
         else none : Store) k) ∧
     (∀ (st₀ : Store) (st' : Store) (payload user_id : String) (ttl : Nat),
       RedisKeys.user_sessions_key "app" user_id ≠ RedisKeys.session_key "app" "s1" →
       save_session "app" st₀ "s1" payload user_id ttl = some st' →
       update_activity "app" st' "s1" (RedisKeys.session_key "app" "s1") =
         some (.str payload, some 86400))) :=
  ⟨by decide,
   c10_update_activity_fixed_ttl "app" "s1"
     (fun k => if k = "app:session:s1" then some (RVal.str "payload", some 60) else none)
     (RVal.str "payload") (some 60) (by decide)⟩

end Session
